import Mathlib

/-!
Verification of the bookstore manager (`bookstore_manager.py`).

A shallow embedding of the bookstore manager: three tables (`member`,
`book`, `sale`) held in an explicit database state, with the post-input
core of each operation (`add_sale`, `update_sale`, `delete_sale`)
modelled as a pure function on that state.

Modelling conventions:
* SQLite `INTEGER` columns become `Int`; `TEXT` columns become `String`.
* The interactive input loops of the Python code re-prompt until the
  value is valid, so the modelled operation cores receive values the
  loops guarantee (e.g. `add_sale` receives a date the date loop
  accepted, a positive quantity and a non-negative discount); these
  guarantees appear as hypotheses or as side conditions of the
  reachability relation.
* A store-level failure during a write/commit step is modelled by a
  `storeFail : Bool` parameter.  An operation that catches the error
  (`except sqlite3.Error` with rollback, as in `add_sale` and
  `update_sale`) returns `OpResult.done` with the rolled-back state;
  an exception the operation does not catch escapes as
  `OpResult.crashed` (in `delete_sale` only `ValueError` is caught, so
  a store error escapes; in `update_sale` a `None` fetch would raise an
  uncaught `TypeError`).
* Python's `re.match` with a `$` anchor also matches just before a
  single newline at the end of the string; `validate_date` models this.
  The `\d` class is modelled as an ASCII digit.
-/

/-- A row of the `member` table (`mid` is the primary key). -/
structure Member where
  mid : String
  mname : String
  mphone : String
  memail : Option String
deriving DecidableEq, Repr

/-- A row of the `book` table (`bid` is the primary key). -/
structure Book where
  bid : String
  btitle : String
  bprice : Int
  bstock : Int
deriving DecidableEq, Repr

/-- A row of the `sale` table (`sid` is the autoincrement primary key). -/
structure Sale where
  sid : Nat
  sdate : String
  mid : String
  bid : String
  sqty : Int
  sdiscount : Int
  stotal : Int
deriving DecidableEq, Repr

/-- The database state: the three tables plus the next autoincrement id. -/
structure DB where
  members : List Member
  books : List Book
  sales : List Sale
  nextSid : Nat
deriving DecidableEq, Repr

/-- A Python exception kind relevant to the operations. -/
inductive PyExc where
  | storeError
  | typeError
deriving DecidableEq, Repr

/-- Outcome of one operation: `done` is a normal return (any store error
was caught and handled inside), `crashed` is an exception escaping the
operation uncaught; both carry the database state afterwards (crashes
leave the uncommitted transaction to be rolled back). -/
inductive OpResult (R : Type) where
  | done : R → DB → OpResult R
  | crashed : PyExc → DB → OpResult R
deriving DecidableEq, Repr

/-- The database state after an operation outcome. -/
def OpResult.state {R : Type} : OpResult R → DB
  | .done _ db => db
  | .crashed _ db => db

/-- Ten characters forming `\d{4}-\d{2}-\d{2}` (digits taken as ASCII). -/
def matchesDateCore (cs : List Char) : Bool :=
  match cs with
  | [y1, y2, y3, y4, h1, m1, m2, h2, d1, d2] =>
      y1.isDigit && y2.isDigit && y3.isDigit && y4.isDigit &&
      h1 == '-' && m1.isDigit && m2.isDigit &&
      h2 == '-' && d1.isDigit && d2.isDigit
  | _ => false

/-- Model of `validate_date` from the source: `re.match(r"^\d{4}-\d{2}-\d{2}$", date)`.
Python's `$` matches at the end of the string or just before a single
trailing newline, so the pattern also accepts the ten characters followed
by one `'\n'`. -/
def validate_date (s : String) : Bool :=
  matchesDateCore s.data ||
    (match s.data with
     | [c1, c2, c3, c4, c5, c6, c7, c8, c9, c10, c11] =>
         matchesDateCore [c1, c2, c3, c4, c5, c6, c7, c8, c9, c10] && c11 == '\n'
     | _ => false)

/-- Model of `check_member_exists`: `SELECT 1 FROM member WHERE mid = ?` is non-empty. -/
def check_member_exists (db : DB) (mid : String) : Bool :=
  db.members.any (fun m => m.mid == mid)

/-- Model of `check_book_exists`: `SELECT 1 FROM book WHERE bid = ?` is non-empty. -/
def check_book_exists (db : DB) (bid : String) : Bool :=
  db.books.any (fun b => b.bid == bid)

/-- Lookup `SELECT ... FROM book WHERE bid = ?` followed by `fetchone()`. -/
def findBook (db : DB) (bid : String) : Option Book :=
  db.books.find? (fun b => b.bid == bid)

/-- Model of `check_book_stock`: returns `(sufficient, current stock)`, with stock
reported as 0 when the book does not exist. -/
def check_book_stock (db : DB) (bid : String) (qty : Int) : Bool × Int :=
  match findBook db bid with
  | some b => if qty ≤ b.bstock then (true, b.bstock) else (false, b.bstock)
  | none => (false, 0)

/-- Model of `get_book_price`: the book's unit price, or 0 when the book is absent. -/
def get_book_price (db : DB) (bid : String) : Int :=
  match findBook db bid with
  | some b => b.bprice
  | none => 0

/-- Result reported by `add_sale`. -/
inductive AddSaleResult where
  | invalidIds
  | insufficientStock (current : Int)
  | added (total : Int)
  | storeError
deriving DecidableEq, Repr

/-- Stock write `UPDATE book SET bstock = bstock - ? WHERE bid = ?`. -/
def decStock (books : List Book) (bid : String) (qty : Int) : List Book :=
  books.map (fun b => if b.bid == bid then { b with bstock := b.bstock - qty } else b)

/-- The core of `add_sale` after the input loops: `sdate` has passed the
date loop, `sqty` and `sdiscount` the quantity/discount loops.  Checks
ids, then stock, computes `total = price*qty - discount`, then inserts
the sale row and decrements the stock in one transaction; a store-level
error there is caught, the transaction rolled back and the error
reported. -/
def add_sale (db : DB) (sdate mid bid : String) (sqty sdiscount : Int)
    (storeFail : Bool) : OpResult AddSaleResult :=
  if !(check_member_exists db mid && check_book_exists db bid) then
    .done .invalidIds db
  else if !(check_book_stock db bid sqty).1 then
    .done (.insufficientStock (check_book_stock db bid sqty).2) db
  else if storeFail then
    .done .storeError db
  else
    .done (.added (get_book_price db bid * sqty - sdiscount))
      { db with
        sales := db.sales ++ [⟨db.nextSid, sdate, mid, bid, sqty, sdiscount,
          get_book_price db bid * sqty - sdiscount⟩],
        books := decStock db.books bid sqty,
        nextSid := db.nextSid + 1 }

/-- Model of `get_sales_list`: `SELECT s.sid, s.sdate, m.mname FROM sale s JOIN
member m ON s.mid = m.mid ORDER BY s.sid`. -/
def get_sales_list (db : DB) : List (Nat × String × String) :=
  (db.sales.insertionSort (fun a b => a.sid ≤ b.sid)).filterMap
    (fun s =>
      match db.members.find? (fun m => m.mid == s.mid) with
      | some m => some (s.sid, s.sdate, m.mname)
      | none => none)

/-- The sale id picked by a (0-based) index into the displayed sales list. -/
def selectedSid (db : DB) (idx : Nat) : Option Nat :=
  (get_sales_list db).get? idx |>.map (fun e => e.1)

/-- Join `SELECT s.*, b.bprice FROM sale s JOIN book b ON s.bid = b.bid WHERE
s.sid = ?` followed by `fetchone()`: `none` when no sale has that id or
its book is missing. -/
def fetchSaleWithPrice (db : DB) (sid : Nat) : Option (Sale × Int) :=
  match db.sales.find? (fun s => s.sid == sid) with
  | some s =>
      match findBook db s.bid with
      | some b => some (s, b.bprice)
      | none => none
  | none => none

/-- Result reported by `update_sale`. -/
inductive UpdateSaleResult where
  | noSales
  | invalidIndex
  | updated (sid : Nat) (total : Int)
  | storeError
deriving DecidableEq, Repr

/-- The core of `update_sale` after input: `idx` is the 0-based selection
(the user types `idx+1`), `new_discount` has passed the discount loop.
Fetches the sale joined with its book, recomputes
`total = current price * original qty - new discount` and persists
discount and total.  A store-level error is caught and rolled back; a
`none` fetch would raise an uncaught `TypeError` on subscription. -/
def update_sale (db : DB) (idx : Nat) (new_discount : Int)
    (storeFail : Bool) : OpResult UpdateSaleResult :=
  if (get_sales_list db).isEmpty then
    .done .noSales db
  else if h : idx < (get_sales_list db).length then
    match fetchSaleWithPrice db ((get_sales_list db).get ⟨idx, h⟩).1 with
    | none => .crashed .typeError db
    | some (s, bprice) =>
        if storeFail then
          .done .storeError db
        else
          .done (.updated ((get_sales_list db).get ⟨idx, h⟩).1
              (bprice * s.sqty - new_discount))
            { db with
              sales := db.sales.map (fun r =>
                if r.sid == ((get_sales_list db).get ⟨idx, h⟩).1 then
                  { r with sdiscount := new_discount, stotal := bprice * s.sqty - new_discount }
                else r) }
  else
    .done .invalidIndex db

/-- Result reported by `delete_sale`. -/
inductive DeleteSaleResult where
  | noSales
  | invalidIndex
  | deleted (sid : Nat)
deriving DecidableEq, Repr

/-- The core of `delete_sale` after input: `DELETE FROM sale WHERE
sid = ?` and commit.  The surrounding `try` catches only `ValueError`,
so a store-level error during the delete/commit escapes the operation
uncaught. -/
def delete_sale (db : DB) (idx : Nat) (storeFail : Bool) :
    OpResult DeleteSaleResult :=
  if (get_sales_list db).isEmpty then
    .done .noSales db
  else if h : idx < (get_sales_list db).length then
    if storeFail then
      .crashed .storeError db
    else
      .done (.deleted ((get_sales_list db).get ⟨idx, h⟩).1)
        { db with sales := db.sales.filter (fun r =>
            !(r.sid == ((get_sales_list db).get ⟨idx, h⟩).1)) }
  else
    .done .invalidIndex db

/-- The state seeded by `initialize_db` on first run. -/
def seedDB : DB :=
  { members :=
      [⟨"M001", "Alice", "0912-345678", some "alice@example.com"⟩,
       ⟨"M002", "Bob", "0923-456789", some "bob@example.com"⟩,
       ⟨"M003", "Cathy", "0934-567890", some "cathy@example.com"⟩],
    books :=
      [⟨"B001", "Python Programming", 600, 50⟩,
       ⟨"B002", "Data Science Basics", 800, 30⟩,
       ⟨"B003", "Machine Learning Guide", 1200, 20⟩],
    sales :=
      [⟨1, "2024-01-15", "M001", "B001", 2, 100, 1100⟩,
       ⟨2, "2024-01-16", "M002", "B002", 1, 50, 750⟩,
       ⟨3, "2024-01-17", "M001", "B003", 3, 200, 3400⟩,
       ⟨4, "2024-01-18", "M003", "B001", 1, 0, 600⟩],
    nextSid := 5 }

/-- States reachable from the seeded database by the menu operations.
The side conditions on `add` and `update` are what the interactive input
loops guarantee before the operation core runs. -/
inductive Reachable : DB → Prop where
  | seed : Reachable seedDB
  | add (db : DB) (sdate mid bid : String) (sqty sdiscount : Int) (storeFail : Bool) :
      Reachable db → validate_date sdate = true → 0 < sqty → 0 ≤ sdiscount →
      Reachable (add_sale db sdate mid bid sqty sdiscount storeFail).state
  | update (db : DB) (idx : Nat) (new_discount : Int) (storeFail : Bool) :
      Reachable db → 0 ≤ new_discount →
      Reachable (update_sale db idx new_discount storeFail).state
  | delete (db : DB) (idx : Nat) (storeFail : Bool) :
      Reachable db →
      Reachable (delete_sale db idx storeFail).state

/-- The spec's wording of the date format: exactly four digits, a dash,
two digits, a dash, and two digits — nothing else. -/
def specDatePattern (s : String) : Bool :=
  match s.data with
  | [y1, y2, y3, y4, h1, m1, m2, h2, d1, d2] =>
      y1.isDigit && y2.isDigit && y3.isDigit && y4.isDigit &&
      h1 == '-' && m1.isDigit && m2.isDigit &&
      h2 == '-' && d1.isDigit && d2.isDigit
  | _ => false

/-- The inductive invariant every operation maintains: book ids are
pairwise distinct (the primary key), no stock is negative, every sale
row has a positive quantity and a non-negative discount, and every sale
references an existing book. -/
def DBInv (db : DB) : Prop :=
  (db.books.map Book.bid).Nodup ∧
  (∀ b ∈ db.books, 0 ≤ b.bstock) ∧
  (∀ s ∈ db.sales, 0 < s.sqty ∧ 0 ≤ s.sdiscount) ∧
  (∀ s ∈ db.sales, check_book_exists db s.bid = true)

/-- A list accepted by `matchesDateCore` has exactly ten characters. -/
theorem matchesDateCore_shape (cs : List Char) (h : matchesDateCore cs = true) :
    ∃ a b c d e f g p q r, cs = [a, b, c, d, e, f, g, p, q, r] := by
  unfold matchesDateCore at h
  split at h
  · rename_i a b c d e f g p q r
    exact ⟨a, b, c, d, e, f, g, p, q, r, rfl⟩
  · cases h

/-- C7 counterexample: `validate_date` accepts a valid date followed by a
trailing newline, which does not consist of exactly the ten-character
pattern. -/
theorem validate_date_trailing_newline :
    validate_date "2024-01-15\n" = true ∧ specDatePattern "2024-01-15\n" = false := by
  decide

/-- C7 (amended): `validate_date s` is true iff `s` is exactly four
digits, dash, two digits, dash, two digits, or that pattern followed by
a single trailing newline (Python's `$` anchor also matches just before
a trailing newline; `\d` taken as ASCII digit). -/
theorem validate_date_iff (s : String) :
    validate_date s = true ↔
      (specDatePattern s = true ∨
        ∃ cs : List Char, s.data = cs ++ ['\n'] ∧ specDatePattern (String.mk cs) = true) := by
  constructor
  · intro h
    unfold validate_date at h
    rw [Bool.or_eq_true] at h
    rcases h with h | h
    · exact Or.inl h
    · split at h
      · rename_i c1 c2 c3 c4 c5 c6 c7 c8 c9 c10 c11 heq
        rw [Bool.and_eq_true] at h
        have hnl : c11 = '\n' := by simpa using h.2
        refine Or.inr ⟨[c1, c2, c3, c4, c5, c6, c7, c8, c9, c10], ?_, h.1⟩
        rw [heq, hnl]
        rfl
      · cases h
  · intro h
    rcases h with h | ⟨cs, hdata, hcs⟩
    · unfold validate_date
      rw [Bool.or_eq_true]
      exact Or.inl h
    · obtain ⟨a, b, c, d, e, f, g, p, q, r, rfl⟩ := matchesDateCore_shape cs hcs
      unfold validate_date
      rw [hdata]
      rw [Bool.or_eq_true]
      right
      simp only [List.cons_append, List.nil_append]
      show (matchesDateCore [a, b, c, d, e, f, g, p, q, r] && ('\n' == '\n')) = true
      rw [Bool.and_eq_true]
      exact ⟨hcs, by simp⟩

/-- C7 amended witness at a concrete input. -/
theorem validate_date_iff_witness :
    specDatePattern "2024-01-15" = true ∨
      ∃ cs : List Char, "2024-01-15".data = cs ++ ['\n'] ∧ specDatePattern (String.mk cs) = true :=
  (validate_date_iff "2024-01-15").mp (by decide)

/-- In a list whose keys are distinct, `find?` by the key of a member
returns that member. -/
theorem find?_key_unique {α β : Type} [DecidableEq β] (key : α → β) (l : List α)
    (hnd : (l.map key).Nodup) (a : α) (ha : a ∈ l) :
    l.find? (fun x => key x == key a) = some a := by
  induction l with
  | nil => cases ha
  | cons x xs ih =>
      rw [List.map_cons, List.nodup_cons] at hnd
      rcases List.mem_cons.mp ha with rfl | hmem
      · simp [List.find?]
      · have hne : (key x == key a) = false := by
          simp only [beq_eq_false_iff_ne]
          intro hkey
          exact hnd.1 (hkey ▸ List.mem_map_of_mem key hmem)
        simp only [List.find?, hne]
        exact ih hnd.2 hmem

/-- Applying `decStock` rewrites the stock of every book whose id matches, so the
row `find?` returns for that id is the old row with decremented stock. -/
theorem find?_decStock (books : List Book) (bid : String) (qty : Int) (b : Book)
    (hfind : books.find? (fun x => x.bid == bid) = some b) :
    (decStock books bid qty).find? (fun x => x.bid == bid)
      = some { b with bstock := b.bstock - qty } := by
  induction books with
  | nil => simp [List.find?] at hfind
  | cons x xs ih =>
      unfold decStock at ih ⊢
      rw [List.map_cons]
      by_cases hx : (x.bid == bid) = true
      · obtain rfl : x = b := by
          simp only [List.find?, hx] at hfind
          exact Option.some.inj hfind
        rw [if_pos hx]
        simp [List.find?, hx]
      · rw [if_neg hx]
        rw [Bool.not_eq_true] at hx
        simp only [List.find?, hx] at hfind ⊢
        exact ih hfind

/-- Applying `decStock` does not change which book ids are present. -/
theorem any_bid_decStock (books : List Book) (bid : String) (qty : Int) (x : String) :
    (decStock books bid qty).any (fun b => b.bid == x) = books.any (fun b => b.bid == x) := by
  unfold decStock
  rw [List.any_map]
  congr 1
  funext b
  by_cases hb : (b.bid == bid) = true
  · simp [Function.comp, hb]
  · simp [Function.comp, hb]

/-- C1: a create with a valid date, existing member and book, positive
quantity, non-negative discount, and sufficient stock decrements the
book's stock by exactly the quantity and appends a sale row whose total
is `price * qty - discount`. -/
theorem add_sale_success (db : DB) (sdate mid bid : String) (sqty sdiscount : Int) (b : Book)
    (hdate : validate_date sdate = true)
    (hm : check_member_exists db mid = true)
    (hfind : findBook db bid = some b)
    (hq : 0 < sqty) (hd : 0 ≤ sdiscount)
    (hstock : sqty ≤ b.bstock) :
    findBook (add_sale db sdate mid bid sqty sdiscount false).state bid
        = some { b with bstock := b.bstock - sqty } ∧
    (add_sale db sdate mid bid sqty sdiscount false).state.sales
        = db.sales ++ [⟨db.nextSid, sdate, mid, bid, sqty, sdiscount,
            b.bprice * sqty - sdiscount⟩] := by
  have hb : check_book_exists db bid = true := by
    have hmem := List.mem_of_find?_eq_some hfind
    have hbeq := List.find?_some hfind
    exact List.any_eq_true.mpr ⟨b, hmem, hbeq⟩
  have hstk : check_book_stock db bid sqty = (true, b.bstock) := by
    unfold check_book_stock
    rw [hfind]
    simp [hstock]
  have hpr : get_book_price db bid = b.bprice := by
    unfold get_book_price
    rw [hfind]
  have hres : add_sale db sdate mid bid sqty sdiscount false
      = OpResult.done (AddSaleResult.added (b.bprice * sqty - sdiscount))
          { db with
            sales := db.sales ++ [⟨db.nextSid, sdate, mid, bid, sqty, sdiscount,
              b.bprice * sqty - sdiscount⟩],
            books := decStock db.books bid sqty,
            nextSid := db.nextSid + 1 } := by
    simp [add_sale, hm, hb, hstk, hpr]
  rw [hres]
  constructor
  · show findBook
      { db with
        sales := db.sales ++ [⟨db.nextSid, sdate, mid, bid, sqty, sdiscount,
          b.bprice * sqty - sdiscount⟩],
        books := decStock db.books bid sqty,
        nextSid := db.nextSid + 1 } bid = some { b with bstock := b.bstock - sqty }
    unfold findBook at hfind ⊢
    exact find?_decStock db.books bid sqty b hfind
  · rfl

/-- C1 witness: the seeded store, member M001 buying 2 of B001 with
discount 100: stock 50 → 48, total 600*2 − 100 = 1100. -/
theorem add_sale_success_witness :
    findBook (add_sale seedDB "2024-02-01" "M001" "B001" 2 100 false).state "B001"
        = some ⟨"B001", "Python Programming", 600, 48⟩ ∧
    (add_sale seedDB "2024-02-01" "M001" "B001" 2 100 false).state.sales
        = seedDB.sales ++ [⟨5, "2024-02-01", "M001", "B001", 2, 100, 1100⟩] := by
  have h := add_sale_success seedDB "2024-02-01" "M001" "B001" 2 100
    ⟨"B001", "Python Programming", 600, 50⟩ (by decide) (by decide) (by decide)
    (by decide) (by decide) (by decide)
  constructor
  · rw [h.1]
    decide
  · rw [h.2]
    decide

/-- C2: a create rejected for an unknown member or book id, or for
insufficient stock, returns with the database exactly as before. -/
theorem add_sale_rejected (db : DB) (sdate mid bid : String) (sqty sdiscount : Int)
    (storeFail : Bool)
    (hrej : check_member_exists db mid = false ∨ check_book_exists db bid = false ∨
      (check_book_stock db bid sqty).1 = false) :
    add_sale db sdate mid bid sqty sdiscount storeFail
        = OpResult.done AddSaleResult.invalidIds db ∨
    add_sale db sdate mid bid sqty sdiscount storeFail
        = OpResult.done (AddSaleResult.insufficientStock (check_book_stock db bid sqty).2) db := by
  by_cases hv : (check_member_exists db mid && check_book_exists db bid) = true
  · have hst : (check_book_stock db bid sqty).1 = false := by
      rw [Bool.and_eq_true] at hv
      rcases hrej with h | h | h
      · rw [hv.1] at h; cases h
      · rw [hv.2] at h; cases h
      · exact h
    right
    unfold add_sale
    rw [hv]
    simp only [Bool.not_true, Bool.false_eq_true, if_false, hst, Bool.not_false, if_true]
  · left
    rw [Bool.not_eq_true] at hv
    unfold add_sale
    rw [hv]
    simp only [Bool.not_false, if_true]

/-- C2 witness: member id M999 does not exist, so the attempt is rejected
and the seeded database is unchanged. -/
theorem add_sale_rejected_witness :
    add_sale seedDB "2024-02-01" "M999" "B001" 1 0 false
        = OpResult.done AddSaleResult.invalidIds seedDB ∨
    add_sale seedDB "2024-02-01" "M999" "B001" 1 0 false
        = OpResult.done (AddSaleResult.insufficientStock (check_book_stock seedDB "B001" 1).2) seedDB :=
  add_sale_rejected seedDB "2024-02-01" "M999" "B001" 1 0 false (Or.inl (by decide))

/-- C3: when all checks pass and a store-level error strikes during the
insert/decrement/commit step, `add_sale` rolls back entirely — the
database is exactly the pre-state, no sale row and no stock change — and
returns normally reporting the error instead of propagating it. -/
theorem add_sale_store_error (db : DB) (sdate mid bid : String) (sqty sdiscount : Int)
    (hm : check_member_exists db mid = true)
    (hb : check_book_exists db bid = true)
    (hs : (check_book_stock db bid sqty).1 = true) :
    add_sale db sdate mid bid sqty sdiscount true
      = OpResult.done AddSaleResult.storeError db := by
  unfold add_sale
  rw [hm, hb]
  simp only [Bool.and_self, Bool.not_true, Bool.false_eq_true, if_false, hs,
    Bool.not_false, if_true]

/-- C3 witness at the seeded store. -/
theorem add_sale_store_error_witness :
    add_sale seedDB "2024-02-01" "M001" "B001" 1 0 true
      = OpResult.done AddSaleResult.storeError seedDB :=
  add_sale_store_error seedDB "2024-02-01" "M001" "B001" 1 0
    (by decide) (by decide) (by decide)

/-- A valid selection index yields a position in the sales list whose
entry carries the selected sale id. -/
theorem selected_get (db : DB) (idx : Nat) (sid : Nat)
    (h : selectedSid db idx = some sid) :
    ∃ hlt : idx < (get_sales_list db).length,
      ((get_sales_list db).get ⟨idx, hlt⟩).1 = sid := by
  unfold selectedSid at h
  rw [Option.map_eq_some'] at h
  obtain ⟨e, he, hfst⟩ := h
  rw [List.get?_eq_some] at he
  obtain ⟨hlt, hget⟩ := he
  exact ⟨hlt, by rw [hget, hfst]⟩

/-- A valid selection index means the displayed sales list is non-empty. -/
theorem sales_list_nonempty (db : DB) (idx : Nat)
    (hlt : idx < (get_sales_list db).length) :
    (get_sales_list db).isEmpty = false := by
  cases hgl : get_sales_list db with
  | nil => rw [hgl] at hlt; simp at hlt
  | cons a l => rfl

/-- Every id in the displayed sales list is the id of some sale row. -/
theorem selectedSid_mem (db : DB) (idx : Nat) (sid : Nat)
    (h : selectedSid db idx = some sid) :
    ∃ s ∈ db.sales, s.sid = sid := by
  unfold selectedSid at h
  rw [Option.map_eq_some'] at h
  obtain ⟨e, he, hfst⟩ := h
  have hmem : e ∈ get_sales_list db := List.get?_mem he
  unfold get_sales_list at hmem
  rw [List.mem_filterMap] at hmem
  obtain ⟨s, hs, hmk⟩ := hmem
  have hs' : s ∈ db.sales := (List.mem_insertionSort _).mp hs
  refine ⟨s, hs', ?_⟩
  split at hmk
  · rename_i m hm
    rw [← hfst, ← Option.some.inj hmk]
  · cases hmk

/-- C4: updating a sale changes only the discount and total of the
targeted row (recomputed from the book's current price and the sale's
original quantity), leaves every other sale row, the book table (hence
all stock) and the member table unchanged. -/
theorem update_sale_frame (db : DB) (idx : Nat) (nd : Int) (s : Sale) (b : Book)
    (hnd : (db.sales.map Sale.sid).Nodup)
    (hdisc : 0 ≤ nd)
    (hsel : selectedSid db idx = some s.sid)
    (hs : s ∈ db.sales)
    (hb : findBook db s.bid = some b) :
    update_sale db idx nd false
      = OpResult.done (UpdateSaleResult.updated s.sid (b.bprice * s.sqty - nd))
          { db with sales := db.sales.map (fun r =>
              if r.sid == s.sid then
                { r with sdiscount := nd, stotal := b.bprice * s.sqty - nd }
              else r) } ∧
    (update_sale db idx nd false).state.books = db.books ∧
    (update_sale db idx nd false).state.members = db.members ∧
    ∀ r ∈ db.sales, r.sid ≠ s.sid → r ∈ (update_sale db idx nd false).state.sales := by
  obtain ⟨hlt, hget1⟩ := selected_get db idx s.sid hsel
  have hne := sales_list_nonempty db idx hlt
  have hfindsale : db.sales.find? (fun x => x.sid == s.sid) = some s :=
    find?_key_unique Sale.sid db.sales hnd s hs
  have hfetch : fetchSaleWithPrice db s.sid = some (s, b.bprice) := by
    unfold fetchSaleWithPrice
    rw [hfindsale]
    simp [hb]
  have hres : update_sale db idx nd false
      = OpResult.done (UpdateSaleResult.updated s.sid (b.bprice * s.sqty - nd))
          { db with sales := db.sales.map (fun r =>
              if r.sid == s.sid then
                { r with sdiscount := nd, stotal := b.bprice * s.sqty - nd }
              else r) } := by
    unfold update_sale
    rw [hne, if_neg Bool.false_ne_true, dif_pos hlt, hget1, hfetch]
    rfl
  refine ⟨hres, ?_, ?_, ?_⟩
  · rw [hres]
    rfl
  · rw [hres]
    rfl
  · intro r hr hrne
    rw [hres]
    show r ∈ List.map _ db.sales
    refine List.mem_map.mpr ⟨r, hr, ?_⟩
    rw [if_neg (by simpa using hrne)]

/-- C4 witness: updating the first listed seeded sale (sid 1, book B001
priced 600, qty 2) to discount 50 yields total 600*2 − 50 = 1150 and
leaves everything else in place. -/
theorem update_sale_frame_witness :
    update_sale seedDB 0 50 false
      = OpResult.done (UpdateSaleResult.updated 1 1150)
          { seedDB with sales :=
              [⟨1, "2024-01-15", "M001", "B001", 2, 50, 1150⟩,
               ⟨2, "2024-01-16", "M002", "B002", 1, 50, 750⟩,
               ⟨3, "2024-01-17", "M001", "B003", 3, 200, 3400⟩,
               ⟨4, "2024-01-18", "M003", "B001", 1, 0, 600⟩] } := by
  have h := update_sale_frame seedDB 0 50
    ⟨1, "2024-01-15", "M001", "B001", 2, 100, 1100⟩
    ⟨"B001", "Python Programming", 600, 50⟩
    (by decide) (by decide) (by decide) (by decide) (by decide)
  rw [h.1]
  decide

/-- With pairwise-distinct sale ids, removing the rows matching one id
shortens the table by exactly one row. -/
theorem length_filter_remove_sid (l : List Sale) (s : Sale)
    (hnd : (l.map Sale.sid).Nodup) (hs : s ∈ l) :
    (l.filter (fun r => !(r.sid == s.sid))).length + 1 = l.length := by
  induction l with
  | nil => cases hs
  | cons x xs ih =>
      rw [List.map_cons, List.nodup_cons] at hnd
      rw [List.filter_cons]
      by_cases hx : (x.sid == s.sid) = true
      · have hxeq : x.sid = s.sid := by simpa using hx
        have hall : xs.filter (fun r => !(r.sid == s.sid)) = xs := by
          rw [List.filter_eq_self]
          intro a ha
          have hane : a.sid ≠ s.sid := by
            intro hh
            rw [← hxeq] at hh
            exact hnd.1 (hh ▸ List.mem_map_of_mem Sale.sid ha)
          simpa using hane
        simp [hx, hall]
      · have hmem : s ∈ xs := by
          rcases List.mem_cons.mp hs with heq | hmem
          · exact absurd (by rw [heq]; simp : (x.sid == s.sid) = true) hx
          · exact hmem
        have hp : (!(x.sid == s.sid)) = true := by
          rw [Bool.not_eq_true] at hx
          simp [hx]
        rw [hp]
        have := ih hnd.2 hmem
        simp only [if_true, List.length_cons]
        omega

/-- C5: deleting a sale removes exactly the targeted row: every other
sale row survives, and the book table (all stock values) and the member
table are untouched. -/
theorem delete_sale_frame (db : DB) (idx : Nat) (s : Sale)
    (hnd : (db.sales.map Sale.sid).Nodup)
    (hsel : selectedSid db idx = some s.sid)
    (hs : s ∈ db.sales) :
    delete_sale db idx false
      = OpResult.done (DeleteSaleResult.deleted s.sid)
          { db with sales := db.sales.filter (fun r => !(r.sid == s.sid)) } ∧
    (delete_sale db idx false).state.books = db.books ∧
    (delete_sale db idx false).state.members = db.members ∧
    s ∉ (delete_sale db idx false).state.sales ∧
    (∀ r ∈ db.sales, r ≠ s → r ∈ (delete_sale db idx false).state.sales) ∧
    (delete_sale db idx false).state.sales.length + 1 = db.sales.length := by
  obtain ⟨hlt, hget1⟩ := selected_get db idx s.sid hsel
  have hne := sales_list_nonempty db idx hlt
  have hres : delete_sale db idx false
      = OpResult.done (DeleteSaleResult.deleted s.sid)
          { db with sales := db.sales.filter (fun r => !(r.sid == s.sid)) } := by
    unfold delete_sale
    rw [hne, if_neg Bool.false_ne_true, dif_pos hlt, hget1]
    rfl
  refine ⟨hres, by rw [hres]; rfl, by rw [hres]; rfl, ?_, ?_, ?_⟩
  · rw [hres]
    intro hmem
    have := (List.mem_filter.mp hmem).2
    simp at this
  · intro r hr hrne
    rw [hres]
    refine List.mem_filter.mpr ⟨hr, ?_⟩
    have : r.sid ≠ s.sid := by
      intro hh
      exact hrne (List.inj_on_of_nodup_map hnd hr hs hh)
    simpa using this
  · rw [hres]
    exact length_filter_remove_sid db.sales s hnd hs

/-- C5 witness: deleting the first listed seeded sale removes sale 1 and
nothing else. -/
theorem delete_sale_frame_witness :
    delete_sale seedDB 0 false
      = OpResult.done (DeleteSaleResult.deleted 1)
          { seedDB with sales :=
              [⟨2, "2024-01-16", "M002", "B002", 1, 50, 750⟩,
               ⟨3, "2024-01-17", "M001", "B003", 3, 200, 3400⟩,
               ⟨4, "2024-01-18", "M003", "B001", 1, 0, 600⟩] } := by
  have h := delete_sale_frame seedDB 0
    ⟨1, "2024-01-15", "M001", "B001", 2, 100, 1100⟩
    (by decide) (by decide) (by decide)
  rw [h.1]
  decide

/-- C6 counterexample: in `delete_sale` only `ValueError` is caught, so a
store-level error during the delete/commit step escapes the operation
uncaught (modelled as `OpResult.crashed`), contradicting the claim that
every operation catches store-level errors and the process never
crashes. -/
theorem delete_sale_store_error_escapes :
    delete_sale seedDB 0 true = OpResult.crashed PyExc.storeError seedDB := by
  decide

/-- C6 (amended): store-level errors raised during `add_sale` and
`update_sale` are caught inside the operation — they never escape, and
when a store failure strikes the write/commit the transaction is rolled
back leaving the state unchanged — but `delete_sale` catches only
`ValueError`, so a store-level error during its delete/commit step
escapes the operation uncaught. -/
theorem store_error_containment (db : DB) (sdate mid bid : String)
    (sqty sdiscount nd : Int) (idx : Nat) (storeFail : Bool) :
    (∀ e db', add_sale db sdate mid bid sqty sdiscount storeFail ≠ OpResult.crashed e db') ∧
    (∀ db', update_sale db idx nd storeFail ≠ OpResult.crashed PyExc.storeError db') ∧
    (add_sale db sdate mid bid sqty sdiscount true).state = db ∧
    (update_sale db idx nd true).state = db ∧
    (idx < (get_sales_list db).length →
      delete_sale db idx true = OpResult.crashed PyExc.storeError db) := by
  refine ⟨?_, ?_, ?_, ?_, ?_⟩
  · intro e db' h
    unfold add_sale at h
    split at h
    · cases h
    · split at h
      · cases h
      · split at h
        · cases h
        · cases h
  · intro db' h
    unfold update_sale at h
    split at h
    · cases h
    · split at h
      · split at h
        · simp at h
        · split at h
          · cases h
          · cases h
      · cases h
  · unfold add_sale
    split
    · rfl
    · split
      · rfl
      · rfl
  · unfold update_sale
    split
    · rfl
    · split
      · split
        · rfl
        · rfl
      · rfl
  · intro hlt
    have hne := sales_list_nonempty db idx hlt
    unfold delete_sale
    rw [hne, if_neg Bool.false_ne_true, dif_pos hlt]
    rfl

/-- C6 amended witness: the uncaught-escape part at a concrete input. -/
theorem store_error_containment_witness :
    delete_sale seedDB 1 true = OpResult.crashed PyExc.storeError seedDB :=
  (store_error_containment seedDB "2024-02-01" "M001" "B001" 1 0 0 1 true).2.2.2.2 (by decide)

/-- Applying `decStock` does not change the list of book ids. -/
theorem map_bid_decStock (bs : List Book) (bid : String) (q : Int) :
    (decStock bs bid q).map Book.bid = bs.map Book.bid := by
  unfold decStock
  rw [List.map_map]
  congr 1
  funext b
  by_cases hb : (b.bid == bid) = true
  · simp [Function.comp, hb]
  · simp [Function.comp, hb]

/-- A passing stock check produces the (unique) located book row, whose
stock is at least the requested quantity. -/
theorem check_book_stock_spec (db : DB) (bid : String) (sqty : Int)
    (hsc : (check_book_stock db bid sqty).1 = true) :
    ∃ b0, findBook db bid = some b0 ∧ sqty ≤ b0.bstock := by
  unfold check_book_stock at hsc
  split at hsc
  · rename_i b0 hb0
    split at hsc
    · rename_i hle
      exact ⟨b0, hb0, hle⟩
    · simp at hsc
  · simp at hsc

/-- The unique book row with a given id: any member of the table sharing
the id of the row `find?` located is that row. -/
theorem findBook_unique (db : DB) (bid : String) (b0 b : Book)
    (hnd : (db.books.map Book.bid).Nodup)
    (hb0 : findBook db bid = some b0)
    (hb : b ∈ db.books) (hbid : (b.bid == bid) = true) : b = b0 := by
  have hb0' : db.books.find? (fun x => x.bid == bid) = some b0 := hb0
  have hb0mem : b0 ∈ db.books := List.mem_of_find?_eq_some hb0'
  have hb0bid : (b0.bid == bid) = true := by
    have hp := List.find?_some hb0'
    simpa using hp
  have h1 : b.bid = bid := by simpa using hbid
  have h2 : b0.bid = bid := by simpa using hb0bid
  exact List.inj_on_of_nodup_map hnd hb hb0mem (h1.trans h2.symm)

/-- Operation `add_sale` preserves the invariant (given what the input loops
guarantee about quantity and discount). -/
theorem dbinv_add (db : DB) (sdate mid bid : String) (sqty sdiscount : Int)
    (storeFail : Bool) (hq : 0 < sqty) (hd : 0 ≤ sdiscount) (hinv : DBInv db) :
    DBInv (add_sale db sdate mid bid sqty sdiscount storeFail).state := by
  obtain ⟨hnd, hstock, hsale, hbid⟩ := hinv
  unfold add_sale
  split
  · exact ⟨hnd, hstock, hsale, hbid⟩
  · split
    · exact ⟨hnd, hstock, hsale, hbid⟩
    · split
      · exact ⟨hnd, hstock, hsale, hbid⟩
      · rename_i h1 h2 h3
        simp at h1 h2
        obtain ⟨b0, hb0, hle⟩ := check_book_stock_spec db bid sqty h2
        simp only [OpResult.state]
        refine ⟨?_, ?_, ?_, ?_⟩
        · show ((decStock db.books bid sqty).map Book.bid).Nodup
          rw [map_bid_decStock]
          exact hnd
        · intro b hb
          have hb' : b ∈ (decStock db.books bid sqty) := hb
          unfold decStock at hb'
          rw [List.mem_map] at hb'
          obtain ⟨c, hc, rfl⟩ := hb'
          by_cases hcb : (c.bid == bid) = true
          · rw [if_pos hcb]
            have : c = b0 := findBook_unique db bid b0 c hnd hb0 hc hcb
            subst this
            show 0 ≤ c.bstock - sqty
            omega
          · rw [if_neg hcb]
            exact hstock c hc
        · intro s hsm
          have hsm' : s ∈ db.sales ++ [(⟨db.nextSid, sdate, mid, bid, sqty, sdiscount,
            get_book_price db bid * sqty - sdiscount⟩ : Sale)] := hsm
          rw [List.mem_append] at hsm'
          rcases hsm' with hold | hnew
          · exact hsale s hold
          · rw [List.mem_singleton] at hnew
            subst hnew
            exact ⟨hq, hd⟩
        · intro s hsm
          have hex : ∀ x, check_book_exists
              { db with
                sales := db.sales ++ [⟨db.nextSid, sdate, mid, bid, sqty, sdiscount,
                  get_book_price db bid * sqty - sdiscount⟩],
                books := decStock db.books bid sqty,
                nextSid := db.nextSid + 1 } x = check_book_exists db x := by
            intro x
            show (decStock db.books bid sqty).any (fun b => b.bid == x)
              = db.books.any (fun b => b.bid == x)
            exact any_bid_decStock db.books bid sqty x
          rw [hex]
          have hsm' : s ∈ db.sales ++ [(⟨db.nextSid, sdate, mid, bid, sqty, sdiscount,
            get_book_price db bid * sqty - sdiscount⟩ : Sale)] := hsm
          rw [List.mem_append] at hsm'
          rcases hsm' with hold | hnew
          · exact hbid s hold
          · rw [List.mem_singleton] at hnew
            subst hnew
            exact h1.2

/-- Operation `update_sale` preserves the invariant (the discount loop guarantees a
non-negative new discount). -/
theorem dbinv_update (db : DB) (idx : Nat) (nd : Int) (storeFail : Bool)
    (hd : 0 ≤ nd) (hinv : DBInv db) :
    DBInv (update_sale db idx nd storeFail).state := by
  obtain ⟨hnd, hstock, hsale, hbid⟩ := hinv
  unfold update_sale
  split
  · exact ⟨hnd, hstock, hsale, hbid⟩
  · split
    · split
      · exact ⟨hnd, hstock, hsale, hbid⟩
      · split
        · exact ⟨hnd, hstock, hsale, hbid⟩
        · rename_i s bprice heq hsf
          refine ⟨hnd, hstock, ?_, ?_⟩
          · intro r hr
            have hr' : r ∈ db.sales.map (fun r =>
                if r.sid == ((get_sales_list db).get ⟨idx, by assumption⟩).1 then
                  { r with sdiscount := nd, stotal := bprice * s.sqty - nd }
                else r) := hr
            rw [List.mem_map] at hr'
            obtain ⟨r0, hr0, rfl⟩ := hr'
            by_cases hrs : (r0.sid == ((get_sales_list db).get ⟨idx, by assumption⟩).1) = true
            · rw [if_pos hrs]
              exact ⟨(hsale r0 hr0).1, hd⟩
            · rw [if_neg hrs]
              exact hsale r0 hr0
          · intro r hr
            have hr' : r ∈ db.sales.map (fun r =>
                if r.sid == ((get_sales_list db).get ⟨idx, by assumption⟩).1 then
                  { r with sdiscount := nd, stotal := bprice * s.sqty - nd }
                else r) := hr
            rw [List.mem_map] at hr'
            obtain ⟨r0, hr0, rfl⟩ := hr'
            show check_book_exists db _ = true
            by_cases hrs : (r0.sid == ((get_sales_list db).get ⟨idx, by assumption⟩).1) = true
            · rw [if_pos hrs]
              exact hbid r0 hr0
            · rw [if_neg hrs]
              exact hbid r0 hr0
    · exact ⟨hnd, hstock, hsale, hbid⟩

/-- Operation `delete_sale` preserves the invariant. -/
theorem dbinv_delete (db : DB) (idx : Nat) (storeFail : Bool) (hinv : DBInv db) :
    DBInv (delete_sale db idx storeFail).state := by
  obtain ⟨hnd, hstock, hsale, hbid⟩ := hinv
  unfold delete_sale
  split
  · exact ⟨hnd, hstock, hsale, hbid⟩
  · split
    · split
      · exact ⟨hnd, hstock, hsale, hbid⟩
      · refine ⟨hnd, hstock, ?_, ?_⟩
        · intro r hr
          exact hsale r (List.mem_filter.mp hr).1
        · intro r hr
          show check_book_exists db _ = true
          exact hbid r (List.mem_filter.mp hr).1
    · exact ⟨hnd, hstock, hsale, hbid⟩

/-- Every reachable state satisfies the invariant. -/
theorem reachable_dbinv (db : DB) (h : Reachable db) : DBInv db := by
  induction h with
  | seed => refine ⟨by decide, by decide, by decide, by decide⟩
  | add db sdate mid bid sqty sdiscount storeFail hr hdate hq hd ih =>
      exact dbinv_add db sdate mid bid sqty sdiscount storeFail hq hd ih
  | update db idx nd storeFail hr hd ih =>
      exact dbinv_update db idx nd storeFail hd ih
  | delete db idx storeFail hr ih =>
      exact dbinv_delete db idx storeFail ih

/-- C8: in every state reachable from the seeded database by the
program's operations, every book's stock is non-negative. -/
theorem reachable_stock_nonneg (db : DB) (h : Reachable db) :
    ∀ b ∈ db.books, 0 ≤ b.bstock :=
  (reachable_dbinv db h).2.1

/-- C8 witness: the seeded B001 row, reachable at step zero. -/
theorem reachable_stock_nonneg_witness :
    0 ≤ (Book.mk "B001" "Python Programming" 600 50).bstock :=
  reachable_stock_nonneg seedDB Reachable.seed
    ⟨"B001", "Python Programming", 600, 50⟩ (by decide)

/-- C9: in every reachable state, every sale row has a positive quantity
and a non-negative discount. -/
theorem reachable_sale_bounds (db : DB) (h : Reachable db) :
    ∀ s ∈ db.sales, 0 < s.sqty ∧ 0 ≤ s.sdiscount :=
  (reachable_dbinv db h).2.2.1

/-- C9 witness: the first seeded sale row. -/
theorem reachable_sale_bounds_witness :
    0 < (Sale.mk 1 "2024-01-15" "M001" "B001" 2 100 1100).sqty ∧
    0 ≤ (Sale.mk 1 "2024-01-15" "M001" "B001" 2 100 1100).sdiscount :=
  reachable_sale_bounds seedDB Reachable.seed
    ⟨1, "2024-01-15", "M001", "B001", 2, 100, 1100⟩ (by decide)

/-- C10: in every reachable state each sale references an existing book,
and therefore the sale-with-price lookup `update_sale` performs for any
validly selected index returns a row (is not `None`). -/
theorem update_fetch_safe (db : DB) (h : Reachable db) :
    (∀ s ∈ db.sales, check_book_exists db s.bid = true) ∧
    (∀ idx sid, selectedSid db idx = some sid →
      (fetchSaleWithPrice db sid).isSome = true) := by
  refine ⟨(reachable_dbinv db h).2.2.2, ?_⟩
  intro idx sid hsel
  obtain ⟨s, hs, hsid⟩ := selectedSid_mem db idx sid hsel
  subst hsid
  have hfind : (db.sales.find? (fun x => x.sid == s.sid)).isSome = true := by
    rw [List.find?_isSome]
    exact ⟨s, hs, by simp⟩
  obtain ⟨t, ht⟩ := Option.isSome_iff_exists.mp hfind
  have htmem := List.mem_of_find?_eq_some ht
  have hbex := (reachable_dbinv db h).2.2.2 t htmem
  have hbook : (findBook db t.bid).isSome = true := by
    unfold findBook
    rw [List.find?_isSome]
    unfold check_book_exists at hbex
    obtain ⟨b, hbm, hbb⟩ := List.any_eq_true.mp hbex
    exact ⟨b, hbm, hbb⟩
  obtain ⟨b, hb⟩ := Option.isSome_iff_exists.mp hbook
  simp [fetchSaleWithPrice, ht, hb]

/-- C10 witness: at the seeded store, selecting the first listed sale
(sid 1) fetches a row. -/
theorem update_fetch_safe_witness :
    (fetchSaleWithPrice seedDB 1).isSome = true :=
  (update_fetch_safe seedDB Reachable.seed).2 0 1 (by decide)
